import Mathlib

/-!
Verification of the LiteResearch Search application logic (src/src/App.tsx).

The application is a React component; all behaviour relevant to the
specification lives in a handful of handler functions over three pieces of
state: `selectedEngines` (a JS object mapping source-id to boolean),
`customSources` (an array of search-source records), and
`searchWindows.current` (a JS object mapping source-id to a `Window` handle
or `null`). We embed these shallowly:

* JS objects with string keys become association lists `List (String × α)`
  with unique keys; assignment (`{...o, [k]: v}` or `o[k] = v`) becomes
  `objSet` (replace in place if present, else append — JS key insertion
  order), `delete o[k]` becomes key-filtering, and property read `o[k]`
  becomes `List.lookup`.
* `Window` handles become abstract `Nat` tokens; `null`/`undefined` become
  `Option`; the host's `closed` flag becomes an oracle `closed : Nat → Bool`;
  `window.open` results become an explicit `Option Nat` parameter.
* `localStorage` entries are modelled at value level: the stored
  `JSON.stringify` blob is represented by the value it serialises
  (`Option` = key present or not). Only the startup-restore path, where
  parse failure matters, is modelled over raw strings with an explicit
  parse function (`none` modelling a thrown exception of `JSON.parse`).
* Effects on host windows (open / navigate-in-place / focus / close) are
  reified as event lists.
-/

set_option autoImplicit false

namespace LiteSearch

/-- Category of a search source, from the union type `'general' | 'academic'`. -/
inductive Category where
  | general
  | academic
deriving DecidableEq, Repr

/-- The `SearchSource` interface of App.tsx (lines 3–10). `category` and
`isCustom` are optional in the source; `isCustom` absent is modelled as
`false` (it is only ever tested for truthiness). -/
structure SearchSource where
  id : String
  name : String
  url : String
  description : String
  category : Option Category
  isCustom : Bool
deriving DecidableEq, Repr

/-- The built-in source registry `defaultSearchSources` (App.tsx lines 32–89),
field for field. -/
def defaultSearchSources : List SearchSource :=
  [ { id := "google", name := "Google",
      url := "https://www.google.com/search?q=",
      description := "General web search",
      category := some Category.general, isCustom := false },
    { id := "bing", name := "Bing",
      url := "https://www.bing.com/search?q=",
      description := "Microsoft search engine",
      category := some Category.general, isCustom := false },
    { id := "google_scholar", name := "Google Scholar",
      url := "https://scholar.google.com/scholar?q=",
      description := "Academic papers and citations",
      category := some Category.academic, isCustom := false },
    { id := "pubmed", name := "PubMed",
      url := "https://pubmed.ncbi.nlm.nih.gov/?term=",
      description := "Biomedical literature",
      category := some Category.academic, isCustom := false },
    { id := "semantic_scholar", name := "Semantic Scholar",
      url := "https://www.semanticscholar.org/search?q=",
      description := "AI-powered research tool",
      category := some Category.academic, isCustom := false },
    { id := "arxiv", name := "arXiv",
      url := "https://arxiv.org/search/?query=",
      description := "Scientific paper repository",
      category := some Category.academic, isCustom := false },
    { id := "research_gate", name := "ResearchGate",
      url := "https://www.researchgate.net/search/publication?q=",
      description := "Scientific network and papers",
      category := some Category.academic, isCustom := false },
    { id := "dblp", name := "DBLP",
      url := "https://dblp.org/search?q=",
      description := "Computer Science Bibliography",
      category := some Category.academic, isCustom := false } ]

/-- A JS object with string keys and values of type `α`, as an association
list in key-insertion order (JS objects cannot hold a key twice). -/
abbrev JsObj (α : Type) := List (String × α)

/-- JS object assignment `o[k] = v` / spread `{...o, [k]: v}`: if the key is
present its value is replaced in place, otherwise the pair is appended
(JS key insertion order is preserved). -/
def objSet {α : Type} : JsObj α → String → α → JsObj α
  | [], id, v => [(id, v)]
  | (k, w) :: rest, id, v =>
    if k = id then (k, v) :: rest else (k, w) :: objSet rest id v

/-- The preference object `selectedEngines : {[key: string]: boolean}`. -/
abbrev PrefMap := JsObj Bool

/-- Truthiness of the property read `selectedEngines[id]`: an absent key is
`undefined`, which is falsy, as is a stored `false`. -/
def getPref (prefs : PrefMap) (id : String) : Bool :=
  (List.lookup id prefs).getD false

/-- The default preferences computed at first startup (App.tsx lines 102–105):
`defaultSearchSources.reduce((acc, s) => { acc[s.id] = true; return acc }, {})`,
i.e. every built-in id mapped to `true`, in registry order. -/
def defaultPreferences : PrefMap :=
  defaultSearchSources.foldl (fun acc source => objSet acc source.id true) []

/- ### encodeURIComponent -/

/-- Uppercase hexadecimal digit, as produced by JS percent-encoding. -/
def hexDigitChar (n : Nat) : Char :=
  if n < 10 then Char.ofNat (48 + n) else Char.ofNat (55 + n)

/-- UTF-8 encoding of a Unicode code point, as the list of its bytes. -/
def utf8Bytes (n : Nat) : List Nat :=
  if n < 0x80 then [n]
  else if n < 0x800 then [0xC0 + n / 0x40, 0x80 + n % 0x40]
  else if n < 0x10000 then
    [0xE0 + n / 0x1000, 0x80 + n / 0x40 % 0x40, 0x80 + n % 0x40]
  else
    [0xF0 + n / 0x40000, 0x80 + n / 0x1000 % 0x40,
     0x80 + n / 0x40 % 0x40, 0x80 + n % 0x40]

/-- The characters `encodeURIComponent` leaves unescaped (ECMA-262
`uriUnescaped`): ASCII alphanumerics and `- _ . ! ~ * ( )` and the
apostrophe (code 39). -/
def isUriUnescaped (c : Char) : Bool :=
  (65 ≤ c.toNat && c.toNat ≤ 90) || (97 ≤ c.toNat && c.toNat ≤ 122) ||
  (48 ≤ c.toNat && c.toNat ≤ 57) ||
  c = '-' || c = '_' || c = '.' || c = '!' || c = '~' || c = '*' ||
  c.toNat = 39 || c = '(' || c = ')'

/-- Percent-escape of one byte, `%XX` with uppercase hex. -/
def percentByte (b : Nat) : String :=
  "%" ++ String.singleton (hexDigitChar (b / 16)) ++
    String.singleton (hexDigitChar (b % 16))

/-- The host `encodeURIComponent`: unescaped characters pass through, every
other code point is UTF-8 encoded and each byte percent-escaped. -/
def encodeURIComponent (s : String) : String :=
  String.join (s.toList.map fun c =>
    if isUriUnescaped c then String.singleton c
    else String.join ((utf8Bytes c.toNat).map percentByte))

/-- `searchUrl` as built on App.tsx line 174:
`` `${source.url}${encodeURIComponent(query)}` ``. -/
def buildSearchUrl (source : SearchSource) (query : String) : String :=
  source.url ++ encodeURIComponent query

/- ### Window manager -/

/-- The `searchWindows.current` object: source-id to `Window | null`.
A key can be present with value `none` (a stored `null` from a refused
`window.open`). -/
abbrev HandleMap := JsObj (Option Nat)

/-- The property read `searchWindows.current[id]` collapsed through the
`win != null` test: an absent key (`undefined`) and a stored `null` behave
identically, so both become `none`. -/
def getWin (st : HandleMap) (id : String) : Option Nat :=
  (List.lookup id st).join

/-- `isWindowOpen` (App.tsx lines 169–171): `win != null && !win.closed`. -/
def isWindowOpen (closed : Nat → Bool) (win : Option Nat) : Bool :=
  match win with
  | none => false
  | some h => !closed h

/-- Observable actions on host windows performed by the component. -/
inductive WinEvent where
  | navigate : Nat → String → WinEvent
  | openWin : String → String → String → WinEvent
  | focus : Nat → WinEvent
deriving DecidableEq, Repr

/-- The URL carried by an event, when it has one. -/
def eventUrl : WinEvent → Option String
  | WinEvent.navigate _ url => some url
  | WinEvent.openWin url _ _ => some url
  | WinEvent.focus _ => none

/-- Whether an event is a `window.open` call. -/
def isOpenEvent : WinEvent → Bool
  | WinEvent.openWin _ _ _ => true
  | _ => false

/-- `openSearchWindow` (App.tsx lines 173–186). `closed` is the host's
`closed` flag on each handle; `openResult` is what `window.open` would
return (`none` models a popup-blocked `null`). Returns the updated handle
map and the host-window actions in order. -/
def openSearchWindow (closed : Nat → Bool) (openResult : Option Nat)
    (st : HandleMap) (source : SearchSource) (query : String) :
    HandleMap × List WinEvent :=
  let searchUrl := buildSearchUrl source query
  let windowName := "search_" ++ source.id
  if isWindowOpen closed (getWin st source.id) then
    let nav := match getWin st source.id with
      | some h => [WinEvent.navigate h searchUrl]
      | none => []
    let foc := match getWin st source.id with
      | some h => [WinEvent.focus h]
      | none => []
    (st, nav ++ foc)
  else
    let st' := objSet st source.id openResult
    let foc := match getWin st' source.id with
      | some h => [WinEvent.focus h]
      | none => []
    (st', [WinEvent.openWin searchUrl windowName "noopener=yes,noreferrer=yes"] ++ foc)

/-- The unmount cleanup (App.tsx lines 210–218):
`Object.values(searchWindows.current).forEach(w => { if (isWindowOpen(w)) w?.close() })`.
Returns the handle map as it is left and the list of handles on which
`close()` was called, in iteration order. The map is not reassigned or
emptied by the source. -/
def teardownAll (closed : Nat → Bool) (st : HandleMap) :
    HandleMap × List Nat :=
  (st, (st.map Prod.snd).filterMap fun w =>
    if isWindowOpen closed w then w else none)

/- ### Application state and registry/preference handlers -/

/-- The component state relevant to the registry and preference claims.
`storedPrefs` / `storedCustom` model the two `localStorage` entries
(`searchEnginePreferences`, `customSearchSources`) at value level:
`some v` means the key holds `JSON.stringify` of `v`, `none` that it is
absent. -/
structure AppState where
  selectedEngines : PrefMap
  customSources : List SearchSource
  storedPrefs : Option PrefMap
  storedCustom : Option (List SearchSource)
deriving DecidableEq, Repr

/-- The merged registry `searchSources = [...defaultSearchSources, ...customSources]`
(App.tsx line 92). -/
def searchSources (st : AppState) : List SearchSource :=
  defaultSearchSources ++ st.customSources

/-- `handleEngineToggle` (App.tsx lines 116–123): spread with
`[sourceId]: !selectedEngines[sourceId]` (an absent key reads as
`undefined`, whose negation is `true`), then persist the new object. -/
def handleEngineToggle (sourceId : String) (st : AppState) : AppState :=
  let newSelectedEngines :=
    objSet st.selectedEngines sourceId (!getPref st.selectedEngines sourceId)
  { st with selectedEngines := newSelectedEngines,
            storedPrefs := some newSelectedEngines }

/-- `handleAddSource` (App.tsx lines 126–154). `now` is `Date.now()` in
milliseconds. Guards on falsiness of `name` and `url` (empty strings),
overwrites the draft's id with `` `custom_${Date.now()}` ``, appends,
persists the custom list, selects the new id and persists preferences. -/
def handleAddSource (now : Nat) (newSource : SearchSource) (st : AppState) :
    AppState :=
  if newSource.name = "" ∨ newSource.url = "" then st
  else
    let src := { newSource with id := "custom_" ++ toString now }
    let updatedCustomSources := st.customSources ++ [src]
    let newSelectedEngines := objSet st.selectedEngines src.id true
    { selectedEngines := newSelectedEngines,
      customSources := updatedCustomSources,
      storedPrefs := some newSelectedEngines,
      storedCustom := some updatedCustomSources }

/-- `handleDeleteSource` (App.tsx lines 157–167): filter the custom list by
`source.id !== sourceId`, persist it; copy the preference object, `delete`
the key, persist it. -/
def handleDeleteSource (sourceId : String) (st : AppState) : AppState :=
  let updatedCustomSources := st.customSources.filter fun s => s.id ≠ sourceId
  let newSelectedEngines := st.selectedEngines.filter fun e => e.1 ≠ sourceId
  { selectedEngines := newSelectedEngines,
    customSources := updatedCustomSources,
    storedPrefs := some newSelectedEngines,
    storedCustom := some updatedCustomSources }

/- ### Search orchestrator -/

/-- ECMAScript `WhiteSpace` / `LineTerminator` characters, the set removed by
`String.prototype.trim`. -/
def isJsWhitespace (c : Char) : Bool :=
  c.toNat = 9 || c.toNat = 10 || c.toNat = 11 || c.toNat = 12 ||
  c.toNat = 13 || c.toNat = 32 || c.toNat = 160 || c.toNat = 0x1680 ||
  (0x2000 ≤ c.toNat && c.toNat ≤ 0x200A) || c.toNat = 0x2028 ||
  c.toNat = 0x2029 || c.toNat = 0x202F || c.toNat = 0x205F ||
  c.toNat = 0x3000 || c.toNat = 0xFEFF

/-- Truthiness test `!query.trim()`: true iff the query is empty or consists
only of whitespace. -/
def jsTrimmedEmpty (query : String) : Bool :=
  query.toList.all isJsWhitespace

/-- `handleSearch` (App.tsx lines 188–203) as the schedule it creates: the
list of `(source, delay-ms)` pairs passed to `setTimeout`, in loop order.
Empty or whitespace-only query returns early; otherwise the merged sources
are filtered by `selectedEngines[source.id]` truthiness and the `i`-th call
is delayed `i * 100` ms. -/
def handleSearch (searchQuery : String) (sources : List SearchSource)
    (selectedEngines : PrefMap) : List (SearchSource × Nat) :=
  if jsTrimmedEmpty searchQuery then []
  else
    let selectedSources := sources.filter fun s => getPref selectedEngines s.id
    selectedSources.enum.map fun p => (p.2, p.1 * 100)

/-- `handleSingleSearch` (App.tsx lines 205–208) as its dispatch schedule:
empty or whitespace-only query returns early, otherwise `openSearchWindow`
is called synchronously (delay 0). -/
def handleSingleSearch (searchQuery : String) (source : SearchSource) :
    List (SearchSource × Nat) :=
  if jsTrimmedEmpty searchQuery then [] else [(source, 0)]

/- ### Startup restore -/

/-- Reads one quoted-string key up to the closing quote; backslash escapes
are not produced by the blobs this application writes and are rejected. -/
def parseKey : List Char → Option (String × List Char)
  | [] => none
  | c :: rest =>
    if c = '"' then some ("", rest)
    else if c = '\\' then none
    else do
      let p ← parseKey rest
      pure (String.singleton c ++ p.1, p.2)

/-- Reads a JSON boolean literal. -/
def parseBool : List Char → Option (Bool × List Char)
  | 't' :: 'r' :: 'u' :: 'e' :: rest => some (true, rest)
  | 'f' :: 'a' :: 'l' :: 's' :: 'e' :: rest => some (false, rest)
  | _ => none

/-- The closing brace character. -/
def rbraceChar : Char := Char.ofNat 125

/-- The opening brace character. -/
def lbraceChar : Char := Char.ofNat 123

/-- Reads `"key":bool` pairs separated by commas, up to the closing brace. -/
def parsePairs : List Char → Nat → Option (PrefMap × List Char)
  | _, 0 => none
  | cs, Nat.succ fuel =>
    match cs with
    | c :: rest =>
      if c = '"' then do
        let p ← parseKey rest
        match p.2 with
        | c2 :: r2 =>
          if c2 = ':' then do
            let q ← parseBool r2
            match q.2 with
            | c3 :: r3 =>
              if c3 = ',' then do
                let u ← parsePairs r3 fuel
                pure ((p.1, q.1) :: u.1, u.2)
              else if c3 = rbraceChar then pure ([(p.1, q.1)], r3)
              else none
            | [] => none
          else none
        | [] => none
      else none
    | [] => none

/-- Model of the host `JSON.parse` restricted to the flat
`{"id":bool, ...}` objects this application ever writes to
`searchEnginePreferences`; `none` models a thrown `SyntaxError` on input
that is not such an object. -/
def parsePrefs (s : String) : Option PrefMap :=
  match s.toList with
  | [] => none
  | c :: rest =>
    if c = lbraceChar then
      if rest = [rbraceChar] then some []
      else do
        let p ← parsePairs rest (rest.length + 1)
        if p.2 = [] then some p.1 else none
    else none

/-- The preference half of the startup effect (App.tsx lines 95–108),
parameterised by the host's `JSON.parse` (`parse s = none` models a thrown
exception). `stored` is `localStorage.getItem('searchEnginePreferences')`.
Returns the adopted preference map together with the value written back to
storage (`none` = no write); `Except.error ()` is an uncaught exception —
the source wraps `JSON.parse(savedPreferences)` in no try/catch. The
`if (savedPreferences)` guard is falsy for the empty string as well as for
an absent key. -/
def loadPreferences (parse : String → Option PrefMap)
    (stored : Option String) : Except Unit (PrefMap × Option PrefMap) :=
  match stored with
  | none => Except.ok (defaultPreferences, some defaultPreferences)
  | some s =>
    if s = "" then Except.ok (defaultPreferences, some defaultPreferences)
    else
      match parse s with
      | some prefs => Except.ok (prefs, none)
      | none => Except.error ()

/- ### Sample values used to instantiate theorems -/

/-- The first built-in registry entry, for instantiating theorems. -/
def googleSource : SearchSource :=
  { id := "google", name := "Google",
    url := "https://www.google.com/search?q=",
    description := "General web search",
    category := some Category.general, isCustom := false }

/-- The application state right after a first-run startup: default
preferences adopted and persisted, no custom sources, no persisted custom
list. -/
def initialAppState : AppState :=
  { selectedEngines := defaultPreferences,
    customSources := [],
    storedPrefs := some defaultPreferences,
    storedCustom := none }

/-- A well-formed custom-source draft, as the add-source form produces. -/
def sampleDraft : SearchSource :=
  { id := "", name := "X", url := "https://x.com/?q=",
    description := "", category := some Category.general, isCustom := true }

/- ### Association-list lemmas -/

theorem lookup_cons_ne {α : Type} (a k : String) (b : α) (es : JsObj α)
    (h : a ≠ k) : ((k, b) :: es).lookup a = es.lookup a := by
  rw [List.lookup_cons]
  have hb : (a == k) = false := beq_eq_false_iff_ne.mpr h
  rw [hb]

theorem lookup_objSet_self {α : Type} (m : JsObj α) (id : String) (v : α) :
    List.lookup id (objSet m id v) = some v := by
  induction m with
  | nil => simp [objSet]
  | cons e rest ih =>
    obtain ⟨k, w⟩ := e
    by_cases hk : k = id
    · subst hk; simp [objSet]
    · rw [show objSet ((k, w) :: rest) id v = (k, w) :: objSet rest id v from
        by simp [objSet, hk]]
      rw [lookup_cons_ne id k w _ (fun h => hk h.symm)]
      exact ih

theorem lookup_objSet_ne {α : Type} (m : JsObj α) (id k : String) (v : α)
    (hk : k ≠ id) : List.lookup k (objSet m id v) = List.lookup k m := by
  induction m with
  | nil => simp [objSet, lookup_cons_ne k id v [] hk]
  | cons e rest ih =>
    obtain ⟨k', w⟩ := e
    by_cases hk' : k' = id
    · subst hk'
      rw [show objSet ((k', w) :: rest) k' v = (k', v) :: rest from
        by simp [objSet]]
      rw [lookup_cons_ne k k' v rest hk, lookup_cons_ne k k' w rest hk]
    · rw [show objSet ((k', w) :: rest) id v = (k', w) :: objSet rest id v from
        by simp [objSet, hk']]
      by_cases hkk : k = k'
      · subst hkk; simp
      · rw [lookup_cons_ne k k' w _ hkk, lookup_cons_ne k k' w rest hkk]
        exact ih

theorem getPref_objSet_self (m : PrefMap) (id : String) (v : Bool) :
    getPref (objSet m id v) id = v := by
  simp [getPref, lookup_objSet_self]

theorem lookup_eraseKey_self {α : Type} (m : JsObj α) (id : String) :
    List.lookup id (m.filter fun e => e.1 ≠ id) = none := by
  induction m with
  | nil => simp
  | cons e rest ih =>
    obtain ⟨k, w⟩ := e
    by_cases hk : k = id
    · subst hk; simpa using ih
    · rw [show List.filter (fun e => decide (e.1 ≠ id)) ((k, w) :: rest) =
          (k, w) :: List.filter (fun e => decide (e.1 ≠ id)) rest from
        by simp [List.filter_cons, hk]]
      rw [lookup_cons_ne id k w _ (fun h => hk h.symm)]
      exact ih

theorem lookup_eraseKey_ne {α : Type} (m : JsObj α) (id k : String)
    (hk : k ≠ id) :
    List.lookup k (m.filter fun e => e.1 ≠ id) = List.lookup k m := by
  induction m with
  | nil => simp
  | cons e rest ih =>
    obtain ⟨k', w⟩ := e
    by_cases hk' : k' = id
    · subst hk'
      rw [show List.filter (fun e => decide (e.1 ≠ k')) ((k', w) :: rest) =
          List.filter (fun e => decide (e.1 ≠ k')) rest from
        by simp [List.filter_cons]]
      rw [lookup_cons_ne k k' w rest hk]
      exact ih
    · rw [show List.filter (fun e => decide (e.1 ≠ id)) ((k', w) :: rest) =
          (k', w) :: List.filter (fun e => decide (e.1 ≠ id)) rest from
        by simp [List.filter_cons, hk']]
      by_cases hkk : k = k'
      · subst hkk; simp
      · rw [lookup_cons_ne k k' w _ hkk, lookup_cons_ne k k' w rest hkk]
        exact ih

/-- Navigation branch of `openSearchWindow`: with a live tracked handle the
call leaves the handle map untouched and performs exactly a navigate-in-place
followed by a focus on that handle. -/
theorem openSearchWindow_live (closed : Nat → Bool) (openResult : Option Nat)
    (st : HandleMap) (source : SearchSource) (query : String) (h : Nat)
    (hwin : getWin st source.id = some h) (hlive : closed h = false) :
    openSearchWindow closed openResult st source query =
      (st, [WinEvent.navigate h (buildSearchUrl source query),
            WinEvent.focus h]) := by
  unfold openSearchWindow
  rw [hwin]
  simp [isWindowOpen, hlive]

/-- C1: with a live handle already tracked for the source's id, `openSearchWindow`
navigates that window in place to the new target URL and focuses it, leaving the
handle map unchanged and opening no window; a second call in succession behaves
identically, so the two calls together perform zero `window.open` calls and the
source keeps its single original window. -/
theorem display_reuses_live_window (closed : Nat → Bool)
    (o1 o2 : Option Nat) (st : HandleMap) (source : SearchSource)
    (query1 query2 : String) (h : Nat)
    (hwin : getWin st source.id = some h) (hlive : closed h = false) :
    openSearchWindow closed o1 st source query1 =
      (st, [WinEvent.navigate h (buildSearchUrl source query1),
            WinEvent.focus h]) ∧
    openSearchWindow closed o2
        (openSearchWindow closed o1 st source query1).1 source query2 =
      (st, [WinEvent.navigate h (buildSearchUrl source query2),
            WinEvent.focus h]) ∧
    ((openSearchWindow closed o1 st source query1).2 ++
      (openSearchWindow closed o2
        (openSearchWindow closed o1 st source query1).1 source query2).2).filter
      isOpenEvent = [] := by
  have h1 := openSearchWindow_live closed o1 st source query1 h hwin hlive
  have h2 : (openSearchWindow closed o1 st source query1).1 = st := by
    rw [h1]
  rw [h2]
  have h3 := openSearchWindow_live closed o2 st source query2 h hwin hlive
  refine ⟨h1, h3, ?_⟩
  rw [h1, h3]
  simp [isOpenEvent]

/-- Witness for `display_reuses_live_window`: a concrete map tracking a live
handle 7 for `google`; both calls navigate handle 7 in place and no open
event occurs. -/
theorem display_reuses_live_window_witness :
    openSearchWindow (fun _ => false) (some 1) [("google", some 7)]
        googleSource "hi" =
      ([("google", some 7)],
       [WinEvent.navigate 7 (buildSearchUrl googleSource "hi"),
        WinEvent.focus 7]) ∧
    openSearchWindow (fun _ => false) (some 2)
        (openSearchWindow (fun _ => false) (some 1) [("google", some 7)]
          googleSource "hi").1 googleSource "hi" =
      ([("google", some 7)],
       [WinEvent.navigate 7 (buildSearchUrl googleSource "hi"),
        WinEvent.focus 7]) ∧
    ((openSearchWindow (fun _ => false) (some 1) [("google", some 7)]
        googleSource "hi").2 ++
      (openSearchWindow (fun _ => false) (some 2)
        (openSearchWindow (fun _ => false) (some 1) [("google", some 7)]
          googleSource "hi").1 googleSource "hi").2).filter isOpenEvent = [] :=
  display_reuses_live_window (fun _ => false) (some 1) (some 2)
    [("google", some 7)] googleSource "hi" "hi" 7 (by decide) rfl

/-- C2: every URL handed to the host by `openSearchWindow` (whether by
navigate-in-place or by `window.open`) is exactly `source.url` concatenated
with the percent-encoded query; the google template with query
`"hello world"` yields `"https://www.google.com/search?q=hello%20world"`;
and a `%s` token in a template is not substituted — the encoded query is
still appended at the end. -/
theorem display_url_construction :
    (∀ source query, buildSearchUrl source query =
        source.url ++ encodeURIComponent query) ∧
    (∀ (closed : Nat → Bool) (openResult : Option Nat) (st : HandleMap)
        (source : SearchSource) (query : String),
      (((openSearchWindow closed openResult st source query).2.filterMap
          eventUrl).all fun u => u == buildSearchUrl source query) = true) ∧
    (defaultSearchSources.map fun s => buildSearchUrl s "hello world").head? =
      some "https://www.google.com/search?q=hello%20world" ∧
    buildSearchUrl
      { id := "c1", name := "X", url := "https://x.com/?q=%s",
        description := "", category := none, isCustom := true } "hi" =
      "https://x.com/?q=%shi" := by
  refine ⟨fun s q => rfl, ?_, by decide, by decide⟩
  intro closed openResult st source query
  unfold openSearchWindow
  by_cases hopen : isWindowOpen closed (getWin st source.id)
  · rw [if_pos hopen]
    cases hg : getWin st source.id <;> simp [eventUrl]
  · rw [if_neg hopen]
    cases hg : getWin (objSet st source.id openResult) source.id <;>
      simp [eventUrl, hg]

/-- C5 (amended): the unmount cleanup calls `close()` exactly once per tracked
entry holding a live handle — an entry whose handle the host reports closed,
or which holds `null`, contributes no close call, so double-close never
happens — but the handle map itself is left in place, not cleared. -/
theorem teardownAll_closes_live_once (closed : Nat → Bool) (st : HandleMap) :
    (teardownAll closed st).1 = st ∧
    ∀ h : Nat, (teardownAll closed st).2.count h =
      st.countP fun e => e.2 == some h && !closed h := by
  refine ⟨rfl, ?_⟩
  intro h
  induction st with
  | nil => rfl
  | cons e rest ih =>
    obtain ⟨k, w⟩ := e
    cases w with
    | none =>
      simpa [teardownAll, isWindowOpen, List.countP_cons] using ih
    | some m =>
      by_cases hc : closed m
      · have : (teardownAll closed ((k, some m) :: rest)).2 =
            (teardownAll closed rest).2 := by
          simp [teardownAll, isWindowOpen, hc]
        rw [this]
        by_cases hm : m = h
        · subst hm
          simpa [List.countP_cons, hc] using ih
        · simpa [List.countP_cons, hm] using ih
      · have : (teardownAll closed ((k, some m) :: rest)).2 =
            m :: (teardownAll closed rest).2 := by
          simp [teardownAll, isWindowOpen, hc]
        rw [this]
        by_cases hm : m = h
        · subst hm
          simp [List.count_cons, List.countP_cons, hc, ih]
        · simp [List.count_cons, List.countP_cons, hm, Ne.symm hm, ih]

/-- Counterexample to C5 as stated: with one live tracked handle, the unmount
cleanup closes it but does not clear the source-id-to-handle mapping — the
entry is still tracked afterwards. -/
theorem teardownAll_does_not_clear_map :
    (teardownAll (fun _ => false) [("google", some 7)]).1 =
      [("google", some 7)] ∧
    (teardownAll (fun _ => false) [("google", some 7)]).1 ≠ [] ∧
    (teardownAll (fun _ => false) [("google", some 7)]).2 = [7] := by
  decide

/-- C8: toggling a source id twice returns its effective preference (absent
reads as not-selected) to the original value; a single toggle flips it; and
after every toggle the persisted blob is exactly the in-memory preference
object. -/
theorem toggleSelection_roundtrip (sourceId : String) (st : AppState) :
    getPref (handleEngineToggle sourceId
        (handleEngineToggle sourceId st)).selectedEngines sourceId =
      getPref st.selectedEngines sourceId ∧
    getPref (handleEngineToggle sourceId st).selectedEngines sourceId =
      !getPref st.selectedEngines sourceId ∧
    (handleEngineToggle sourceId st).storedPrefs =
      some (handleEngineToggle sourceId st).selectedEngines ∧
    (handleEngineToggle sourceId
        (handleEngineToggle sourceId st)).storedPrefs =
      some (handleEngineToggle sourceId
        (handleEngineToggle sourceId st)).selectedEngines := by
  refine ⟨?_, ?_, rfl, rfl⟩
  · simp [handleEngineToggle, getPref_objSet_self]
  · simp [handleEngineToggle, getPref_objSet_self]

/-- C3: an empty or whitespace-only query schedules nothing on either path;
otherwise the search-all path schedules exactly one `openSearchWindow` call
per currently-selected source, in registry order (the `i`-th scheduled call
carries the `i`-th selected source with delay `i * 100` ms, so delays are
strictly increasing), and the search-one path dispatches its single call
with zero delay. -/
theorem searchAll_schedule (searchQuery : String)
    (sources : List SearchSource) (selectedEngines : PrefMap)
    (source : SearchSource) :
    (jsTrimmedEmpty searchQuery = true →
      handleSearch searchQuery sources selectedEngines = [] ∧
      handleSingleSearch searchQuery source = []) ∧
    (jsTrimmedEmpty searchQuery = false →
      (∀ i : Nat, (handleSearch searchQuery sources selectedEngines)[i]? =
        ((sources.filter fun s => getPref selectedEngines s.id)[i]?).map
          fun s => (s, i * 100)) ∧
      (handleSearch searchQuery sources selectedEngines).length =
        (sources.filter fun s => getPref selectedEngines s.id).length ∧
      (∀ (i j : Nat) (si sj : SearchSource) (di dj : Nat),
        (handleSearch searchQuery sources selectedEngines)[i]? =
          some (si, di) →
        (handleSearch searchQuery sources selectedEngines)[j]? =
          some (sj, dj) →
        i < j → di < dj) ∧
      handleSingleSearch searchQuery source = [(source, 0)]) := by
  constructor
  · intro hempty
    constructor <;> simp [handleSearch, handleSingleSearch, hempty]
  · intro hnonempty
    have hget : ∀ i : Nat,
        (handleSearch searchQuery sources selectedEngines)[i]? =
        ((sources.filter fun s => getPref selectedEngines s.id)[i]?).map
          fun s => (s, i * 100) := by
      intro i
      simp only [handleSearch, hnonempty, Bool.false_eq_true, if_false]
      rw [List.getElem?_map, List.getElem?_enum]
      cases (sources.filter fun s => getPref selectedEngines s.id)[i]? <;> rfl
    refine ⟨hget, ?_, ?_, ?_⟩
    · simp [handleSearch, hnonempty]
    · intro i j si sj di dj hi hj hij
      rw [hget i] at hi
      rw [hget j] at hj
      cases hi' : (sources.filter fun s => getPref selectedEngines s.id)[i]? with
      | none => rw [hi'] at hi; exact absurd hi (by simp)
      | some s =>
        rw [hi'] at hi
        cases hj' : (sources.filter fun s => getPref selectedEngines s.id)[j]? with
        | none => rw [hj'] at hj; exact absurd hj (by simp)
        | some t =>
          rw [hj'] at hj
          have hdi : di = i * 100 := by
            simpa using congrArg (fun o => (o.map Prod.snd).getD 0) hi.symm
          have hdj : dj = j * 100 := by
            simpa using congrArg (fun o => (o.map Prod.snd).getD 0) hj.symm
          subst hdi; subst hdj
          omega
    · simp [handleSingleSearch, hnonempty]

/-- Witness for `searchAll_schedule`: the whitespace-only query `"  "`
schedules nothing, and the query `"hi"` over the built-in registry with
default preferences schedules google at delay 0 and bing at delay 100. -/
theorem searchAll_schedule_witness :
    handleSearch "  " defaultSearchSources defaultPreferences = [] ∧
    (handleSearch "hi" defaultSearchSources defaultPreferences)[0]? =
      some (googleSource, 0) ∧
    (handleSearch "hi" defaultSearchSources defaultPreferences)[1]? =
      ((defaultSearchSources.filter fun s =>
        getPref defaultPreferences s.id)[1]?).map (fun s => (s, 100)) ∧
    handleSingleSearch "hi" googleSource = [(googleSource, 0)] := by
  refine ⟨((searchAll_schedule "  " defaultSearchSources defaultPreferences
      googleSource).1 (by decide)).1, ?_, ?_, ?_⟩
  · have h := ((searchAll_schedule "hi" defaultSearchSources
      defaultPreferences googleSource).2 (by decide)).1 0
    rw [h]; decide
  · have h := ((searchAll_schedule "hi" defaultSearchSources
      defaultPreferences googleSource).2 (by decide)).1 1
    simpa using h
  · exact ((searchAll_schedule "hi" defaultSearchSources defaultPreferences
      googleSource).2 (by decide)).2.2.2

/-- Counterexample to C4 as stated: a malformed persisted preferences blob is
not treated as absent — `JSON.parse` is called with no try/catch, so the
startup effect raises instead of falling back to the defaults. -/
theorem startupRestore_malformed_raises :
    loadPreferences parsePrefs (some "oops") = Except.error () := by
  rfl

/-- C4 (amended): at startup, an absent (or empty-string) preferences entry
makes the app synthesize default preferences mapping every built-in id to
`true` and persist exactly that object; a present blob that parses is
adopted verbatim with no write-back; but a present blob on which
`JSON.parse` raises propagates the exception — there is no fallback. -/
theorem startupRestore_spec (parse : String → Option PrefMap)
    (stored : Option String) :
    (stored = none →
      loadPreferences parse stored =
        Except.ok (defaultPreferences, some defaultPreferences)) ∧
    loadPreferences parse (some "") =
      Except.ok (defaultPreferences, some defaultPreferences) ∧
    (∀ s prefs, stored = some s → s ≠ "" → parse s = some prefs →
      loadPreferences parse stored = Except.ok (prefs, none)) ∧
    (∀ s, stored = some s → s ≠ "" → parse s = none →
      loadPreferences parse stored = Except.error ()) ∧
    defaultPreferences = defaultSearchSources.map fun s => (s.id, true) := by
  refine ⟨?_, rfl, ?_, ?_, by decide⟩
  · intro h; subst h; rfl
  · intro s prefs hs hne hparse
    subst hs
    simp [loadPreferences, hne, hparse]
  · intro s hs hne hparse
    subst hs
    simp [loadPreferences, hne, hparse]

/-- Witness for `startupRestore_spec`: with the mini `JSON.parse` model, an
absent entry yields the persisted defaults and a well-formed stored blob is
adopted verbatim without a write. -/
theorem startupRestore_spec_witness :
    loadPreferences parsePrefs none =
      Except.ok (defaultPreferences, some defaultPreferences) ∧
    loadPreferences parsePrefs (some "\x7b\"google\":true\x7d") =
      Except.ok ([("google", true)], none) :=
  ⟨(startupRestore_spec parsePrefs none).1 rfl,
   (startupRestore_spec parsePrefs
      (some "\x7b\"google\":true\x7d")).2.2.1 "\x7b\"google\":true\x7d"
      [("google", true)] rfl (by decide) (by decide)⟩

/-- C6: adding a custom source with an empty name or an empty URL template
leaves the whole state (persisted storage included) unchanged; otherwise the
caller-supplied id is irrelevant (it is overwritten with
`"custom_" ++ Date.now()`), the entry is appended to the custom list, the
fresh id's preference becomes `true`, and both the full custom list and the
preferences are persisted to match the in-memory state. -/
theorem addCustomSource_spec (now : Nat) (newSource : SearchSource)
    (st : AppState) :
    ((newSource.name = "" ∨ newSource.url = "") →
      handleAddSource now newSource st = st) ∧
    (newSource.name ≠ "" → newSource.url ≠ "" →
      (handleAddSource now newSource st).customSources =
        st.customSources ++
          [{ newSource with id := "custom_" ++ toString now }] ∧
      getPref (handleAddSource now newSource st).selectedEngines
        ("custom_" ++ toString now) = true ∧
      (handleAddSource now newSource st).storedCustom =
        some (handleAddSource now newSource st).customSources ∧
      (handleAddSource now newSource st).storedPrefs =
        some (handleAddSource now newSource st).selectedEngines ∧
      ∀ otherId, handleAddSource now { newSource with id := otherId } st =
        handleAddSource now newSource st) := by
  constructor
  · intro h
    simp [handleAddSource, h]
  · intro hname hurl
    have hcond : ¬(newSource.name = "" ∨ newSource.url = "") := by
      rintro (h | h) <;> [exact hname h; exact hurl h]
    obtain ⟨i, n, u, d, c, ic⟩ := newSource
    simp only at hname hurl
    refine ⟨?_, ?_, ?_, ?_, ?_⟩
    · simp [handleAddSource, hname, hurl]
    · simp [handleAddSource, hname, hurl, getPref_objSet_self]
    · simp [handleAddSource, hname, hurl]
    · simp [handleAddSource, hname, hurl]
    · intro otherId
      simp [handleAddSource, hname, hurl]

/-- Witness for `addCustomSource_spec`: adding the sample draft at
`Date.now() = 42` to the first-run state appends `custom_42`, selects it,
and persists both collections; the draft's own id field is ignored. -/
theorem addCustomSource_spec_witness :
    handleAddSource 42 sampleDraft initialAppState = handleAddSource 42
      { sampleDraft with id := "ignored" } initialAppState ∧
    (handleAddSource 42 sampleDraft initialAppState).customSources =
      [{ sampleDraft with id := "custom_42" }] ∧
    getPref (handleAddSource 42 sampleDraft initialAppState).selectedEngines
      "custom_42" = true ∧
    handleAddSource 42 { sampleDraft with name := "" } initialAppState =
      initialAppState := by
  refine ⟨((((addCustomSource_spec 42 sampleDraft
      initialAppState).2 (by decide) (by decide)).2.2.2.2 "ignored")).symm,
    ?_, ?_, ?_⟩
  · have h := ((addCustomSource_spec 42 sampleDraft
      initialAppState).2 (by decide) (by decide)).1
    simpa [initialAppState] using h
  · exact ((addCustomSource_spec 42 sampleDraft
      initialAppState).2 (by decide) (by decide)).2.1
  · exact (addCustomSource_spec 42 { sampleDraft with name := "" }
      initialAppState).1 (Or.inl rfl)

/-- C7: deleting an id that is present in the custom list removes every trace
of it — it is gone from the custom list and from the preference mapping —
while every other custom entry and every other preference key is untouched,
and both persisted blobs are rewritten to match the in-memory state. -/
theorem deleteCustomSource_spec (sourceId : String) (st : AppState)
    (hmem : ∃ s ∈ st.customSources, s.id = sourceId) :
    (∀ s ∈ (handleDeleteSource sourceId st).customSources, s.id ≠ sourceId) ∧
    List.lookup sourceId
      (handleDeleteSource sourceId st).selectedEngines = none ∧
    (handleDeleteSource sourceId st).storedCustom =
      some (handleDeleteSource sourceId st).customSources ∧
    (handleDeleteSource sourceId st).storedPrefs =
      some (handleDeleteSource sourceId st).selectedEngines ∧
    (∀ s ∈ st.customSources, s.id ≠ sourceId →
      s ∈ (handleDeleteSource sourceId st).customSources) ∧
    (∀ k, k ≠ sourceId →
      List.lookup k (handleDeleteSource sourceId st).selectedEngines =
        List.lookup k st.selectedEngines) := by
  refine ⟨?_, ?_, rfl, rfl, ?_, ?_⟩
  · intro s hs
    have := List.of_mem_filter hs
    simpa using this
  · exact lookup_eraseKey_self st.selectedEngines sourceId
  · intro s hs hne
    exact List.mem_filter.mpr ⟨hs, by simpa using hne⟩
  · intro k hk
    exact lookup_eraseKey_ne st.selectedEngines sourceId k hk

/-- Witness for `deleteCustomSource_spec`: deleting `custom_42` from the
state that just added it removes it from the custom list and from the
preferences, leaving the built-in preferences intact. -/
theorem deleteCustomSource_spec_witness :
    (∀ s ∈ (handleDeleteSource "custom_42"
        (handleAddSource 42 sampleDraft initialAppState)).customSources,
      s.id ≠ "custom_42") ∧
    List.lookup "custom_42" (handleDeleteSource "custom_42"
      (handleAddSource 42 sampleDraft initialAppState)).selectedEngines =
      none ∧
    List.lookup "google" (handleDeleteSource "custom_42"
      (handleAddSource 42 sampleDraft initialAppState)).selectedEngines =
      List.lookup "google" (handleAddSource 42 sampleDraft
        initialAppState).selectedEngines := by
  have h := deleteCustomSource_spec "custom_42"
    (handleAddSource 42 sampleDraft initialAppState)
    ⟨{ sampleDraft with id := "custom_42" }, by decide, rfl⟩
  exact ⟨h.1, h.2.1, h.2.2.2.2.2 "google" (by decide)⟩

/-- C9 at its failing input: two well-formed additions performed at the same
`Date.now()` timestamp are both assigned the id `custom_5`, so the merged
registry ends up with two entries sharing an id — the uniqueness invariant
(and the source's own "generate unique ID" comment) is violated. -/
theorem addCustomSource_duplicate_id_same_timestamp :
    (handleAddSource 5 sampleDraft
        (handleAddSource 5 sampleDraft initialAppState)).customSources.map
      SearchSource.id = ["custom_5", "custom_5"] ∧
    ¬ ((searchSources (handleAddSource 5 sampleDraft
        (handleAddSource 5 sampleDraft initialAppState))).map
      SearchSource.id).Nodup := by
  constructor
  · decide
  · decide

/-- C10: deleting an id that is absent from the custom list — every built-in
id in particular — leaves the custom list and hence the merged registry
unchanged, yet still removes that id's preference entry and rewrites both
persisted blobs; so a built-in source can lose its selection entry through
the delete operation while remaining in the registry. -/
theorem deleteCustomSource_nonCustom (sourceId : String) (st : AppState)
    (habs : ∀ s ∈ st.customSources, s.id ≠ sourceId) :
    (handleDeleteSource sourceId st).customSources = st.customSources ∧
    searchSources (handleDeleteSource sourceId st) = searchSources st ∧
    List.lookup sourceId
      (handleDeleteSource sourceId st).selectedEngines = none ∧
    (handleDeleteSource sourceId st).storedCustom = some st.customSources ∧
    (handleDeleteSource sourceId st).storedPrefs =
      some (handleDeleteSource sourceId st).selectedEngines := by
  have hfilter : st.customSources.filter (fun s => s.id ≠ sourceId) =
      st.customSources :=
    List.filter_eq_self.mpr fun s hs => by simpa using habs s hs
  refine ⟨hfilter, ?_, lookup_eraseKey_self st.selectedEngines sourceId,
    congrArg some hfilter, rfl⟩
  show defaultSearchSources ++
      List.filter (fun s => decide (s.id ≠ sourceId)) st.customSources =
    defaultSearchSources ++ st.customSources
  rw [hfilter]

/-- Witness for `deleteCustomSource_nonCustom`: deleting the built-in id
`google` from the first-run state keeps the registry intact but erases
google's preference entry, which previously was `some true`. -/
theorem deleteCustomSource_nonCustom_witness :
    (handleDeleteSource "google" initialAppState).customSources = [] ∧
    searchSources (handleDeleteSource "google" initialAppState) =
      searchSources initialAppState ∧
    List.lookup "google"
      (handleDeleteSource "google" initialAppState).selectedEngines = none ∧
    List.lookup "google" initialAppState.selectedEngines = some true := by
  have h := deleteCustomSource_nonCustom "google" initialAppState
    (by intro s hs; simp [initialAppState] at hs)
  exact ⟨h.1, h.2.1, h.2.2.1, by decide⟩

end LiteSearch
